import Mathlib

/-!
Shallow embedding of the transaction-group engine of the AppGestaoFinanceira
repository (`src/components/transaction-provider.tsx`, `src/components/
dashboard-shell.tsx`, `src/lib/categories.ts`).

Modelling conventions:
* JavaScript `number` money values are modelled as exact rationals (`ℚ`);
  `Math.abs` is `|·|` and `Math.floor` is `Int.floor`.
* JavaScript `Date` values produced by the calendar pickers are modelled as
  calendar dates (year, month, day); `date-fns` `addMonths` is embedded with
  its day-of-month clamping, and the JS `<=` comparison of two such dates is
  the chronological order `dateLe`.
* Optional record fields (`paymentMethod?`, `creditCardId?`, `groupId?`,
  `isOriginal?`) are `Option`s; the provider strips `undefined` entries
  before writing, so `none` means "key absent".  A Firestore
  `update`/`batch.update` overwrites exactly the keys present in the map and
  leaves absent keys unchanged, which is how updates are embedded here.
* The `while`/`for` loops of `addTransaction` are embedded as structural
  recursion on an explicit iteration-count argument that is instantiated
  with the exact number of iterations the source loop performs.
-/

namespace AppGestao

/-- A calendar date, standing for the JS `Date` values handled by the form. -/
structure Date where
  year : Nat
  month : Nat
  day : Nat
deriving DecidableEq, Repr

/-- Gregorian leap-year rule (as implemented by the JS `Date` calendar). -/
def isLeapYear (y : Nat) : Bool :=
  y % 4 == 0 && (y % 100 != 0 || y % 400 == 0)

/-- Number of days of month `m` of year `y` (JS calendar). -/
def daysInMonth (y m : Nat) : Nat :=
  if m == 2 then (if isLeapYear y then 29 else 28)
  else if m == 4 || m == 6 || m == 9 || m == 11 then 30
  else 31

/-- Months elapsed since year 0, the key used to compare and shift months. -/
def monthIndex (d : Date) : Nat := d.year * 12 + (d.month - 1)

/-- `date-fns` `addMonths`: advance `n` months, clamping the day of month to
the length of the target month. -/
def addMonths (d : Date) (n : Nat) : Date :=
  let idx := monthIndex d + n
  let y := idx / 12
  let m := idx % 12 + 1
  ⟨y, m, min d.day (daysInMonth y m)⟩

/-- The JS `<=` comparison on the `Date`s involved (chronological order). -/
def dateLe (a b : Date) : Bool :=
  decide (monthIndex a < monthIndex b ∨
          (monthIndex a = monthIndex b ∧ a.day ≤ b.day))

/-- `k`-fold application of `addMonths · 1`, the date reached after `k`
iterations of the recurring loop. -/
def iterAddMonths : Nat → Date → Date
  | 0, d => d
  | k + 1, d => iterAddMonths k (addMonths d 1)

/-- `type: 'income' | 'expense'`. -/
inductive TxType
  | income
  | expense
deriving DecidableEq, Repr

/-- `paymentMethod?: 'cash' | 'creditCard'`. -/
inductive PaymentMethod
  | cash
  | creditCard
deriving DecidableEq, Repr

/-- One element of `newTransactionsList` in `addTransaction`
(an `Omit<Transaction, 'id'>`); `none` in an optional field means the key is
absent from the pushed object (or stripped as `undefined` before saving). -/
structure Draft where
  description : String
  amount : ℚ
  type : TxType
  category : String
  date : Date
  paymentMethod : Option PaymentMethod := none
  creditCardId : Option String := none
  groupId : Option String := none
  isOriginal : Option Bool := none
deriving DecidableEq, Repr

/-- The `values` argument of `addTransaction` (the submitted form payload). -/
structure AddValues where
  description : String
  amount : ℚ
  type : TxType
  category : String
  date : Date
  paymentMethod : Option PaymentMethod := none
  creditCardId : Option String := none
  isRecurring : Bool := false
  recurringEndDate : Option Date := none
  installments : Option Int := none
deriving DecidableEq, Repr

/-- Line 108: `values.type === 'expense' ? -Math.abs(values.amount) :
Math.abs(values.amount)` (used by the single-transaction branch). -/
def signedAmount (v : AddValues) : ℚ :=
  if v.type = TxType.expense then -|v.amount| else |v.amount|

/-- The object pushed by one iteration of the recurring `while` loop
(lines 122-131); `creditCardId` is not part of the pushed object. -/
def recurringDraft (gid : String) (v : AddValues) (currentDate : Date)
    (i : Nat) : Draft :=
  { description := v.description ++ " (Recorrente)"
    amount := -|v.amount|
    type := v.type
    category := v.category
    date := currentDate
    paymentMethod := some PaymentMethod.cash
    groupId := some gid
    isOriginal := some (decide (i = 0)) }

/-- The recurring `while` loop (lines 121-134), by recursion on the exact
number of remaining iterations. -/
def recurringGo (gid : String) (v : AddValues) (endDate : Date) :
    Nat → Date → Nat → List Draft
  | 0, _, _ => []
  | fuel + 1, currentDate, i =>
    if dateLe currentDate endDate then
      recurringDraft gid v currentDate i ::
        recurringGo gid v endDate fuel (addMonths currentDate 1) (i + 1)
    else []

/-- Drafts generated by the recurring branch of `addTransaction`
(lines 114-134): the loop runs at most `monthIndex endDate + 1 -
monthIndex startDate` times, which is passed as the iteration budget. -/
def recurringDrafts (gid : String) (v : AddValues) (endDate : Date) :
    List Draft :=
  recurringGo gid v endDate (monthIndex endDate + 1 - monthIndex v.date)
    v.date 0

/-- The object pushed by iteration `i` of the installment `for` loop
(lines 158-168), given the amount chosen for this installment. -/
def installmentDraft (gid : String) (v : AddValues) (n i : Nat) (amt : ℚ) :
    Draft :=
  { description := v.description ++ " (" ++ toString (i + 1) ++ "/" ++
      toString n ++ ")"
    amount := -|amt|
    type := v.type
    category := v.category
    date := addMonths v.date i
    paymentMethod := v.paymentMethod
    creditCardId := v.creditCardId
    groupId := some gid
    isOriginal := some (decide (i = 0)) }

/-- The installment `for` loop (lines 146-169): the last installment gets
`totalAmount - accumulatedAmount`, the others get the base amount and add it
to the accumulator.  Recursion is on the number of remaining iterations. -/
def installmentGo (gid : String) (v : AddValues) (n : Nat)
    (totalAmount installmentAmount : ℚ) : Nat → ℚ → Nat → List Draft
  | 0, _, _ => []
  | fuel + 1, accumulatedAmount, i =>
    if i = n - 1 then
      installmentDraft gid v n i (totalAmount - accumulatedAmount) ::
        installmentGo gid v n totalAmount installmentAmount fuel
          accumulatedAmount (i + 1)
    else
      installmentDraft gid v n i installmentAmount ::
        installmentGo gid v n totalAmount installmentAmount fuel
          (accumulatedAmount + installmentAmount) (i + 1)

/-- Line 143: `Math.floor((totalAmount / numInstallments) * 100) / 100`. -/
def installmentAmount (totalAmount : ℚ) (numInstallments : Nat) : ℚ :=
  ((⌊totalAmount / (numInstallments : ℚ) * 100⌋ : ℤ) : ℚ) / 100

/-- Drafts generated by the installment branch of `addTransaction`
(lines 139-169): the `for` loop runs `n` times. -/
def installmentDrafts (gid : String) (v : AddValues) (n : Nat) : List Draft :=
  installmentGo gid v n v.amount (installmentAmount v.amount n) n 0 0

/-- The single-transaction branch (lines 176-184): no `groupId`, no
`isOriginal`, amount signed by type. -/
def singleDraft (v : AddValues) : Draft :=
  { description := v.description
    amount := signedAmount v
    type := v.type
    category := v.category
    date := v.date
    paymentMethod := v.paymentMethod
    creditCardId := v.creditCardId }

/-- The draft-generation part of `addTransaction` (lines 101-189): the
recurring branch fires for an expense with `isRecurring` and a truthy
`recurringEndDate`; otherwise the installment branch fires for an expense
with `installments > 1`; otherwise a single draft is produced.  The whole
list is then persisted in one batch write. -/
def addTransactionDrafts (gid : String) (v : AddValues) : List Draft :=
  if v.type = TxType.expense ∧ v.isRecurring = true ∧
      v.recurringEndDate ≠ none then
    recurringDrafts gid v (v.recurringEndDate.getD v.date)
  else if v.type = TxType.expense ∧ 1 < v.installments.getD 0 then
    installmentDrafts gid v (v.installments.getD 0).toNat
  else
    [singleDraft v]

/-- A stored transaction document (a `Transaction`, including its id). -/
structure Tx where
  id : String
  description : String
  amount : ℚ
  type : TxType
  category : String
  date : Date
  paymentMethod : Option PaymentMethod := none
  creditCardId : Option String := none
  groupId : Option String := none
  isOriginal : Option Bool := none
deriving DecidableEq, Repr

/-- The `values` argument of `updateTransactionGroup` (category / payment
fields of the group-edit form; `none` = `undefined`). -/
structure GroupValues where
  category : Option String := none
  paymentMethod : Option PaymentMethod := none
  creditCardId : Option String := none
deriving DecidableEq, Repr

/-- Lines 266-278: build `dataToUpdate = {category, paymentMethod,
creditCardId}`, blank `creditCardId` when the payment method is cash, strip
`undefined` entries, and apply the remaining keys as a Firestore
`batch.update`, which leaves keys absent from the map unchanged. -/
def updateGroupFields (values : GroupValues) (t : Tx) : Tx :=
  let creditCardId :=
    if values.paymentMethod = some PaymentMethod.cash then none
    else values.creditCardId
  { t with
    category := match values.category with
      | some c => c
      | none => t.category
    paymentMethod := match values.paymentMethod with
      | some p => some p
      | none => t.paymentMethod
    creditCardId := match creditCardId with
      | some c => some c
      | none => t.creditCardId }

/-- `updateTransactionGroup` (lines 254-291): query all transactions whose
`groupId` equals the given one and update each of them in one batch; other
documents are untouched. -/
def updateTransactionGroup (groupId : String) (values : GroupValues)
    (txs : List Tx) : List Tx :=
  txs.map fun t =>
    if t.groupId = some groupId then updateGroupFields values t else t

/-- The `values` argument of `updateTransaction` (the edit form payload). -/
structure UpdateValues where
  description : String
  amount : ℚ
  type : TxType
  category : String
  date : Date
  paymentMethod : Option PaymentMethod := none
  creditCardId : Option String := none
  groupId : Option String := none
deriving DecidableEq, Repr

/-- `updateTransaction` (lines 215-252): recompute the signed amount, blank
payment fields according to type / payment method, strip `undefined`
entries and apply the remaining keys with `updateDoc` (absent keys keep
their stored value). -/
def updateTransaction (values : UpdateValues) (t : Tx) : Tx :=
  let amount :=
    if values.type = TxType.expense then -|values.amount| else |values.amount|
  let paymentMethod :=
    if values.type = TxType.income then none else values.paymentMethod
  let creditCardId :=
    if values.type = TxType.income then none
    else if values.paymentMethod = some PaymentMethod.cash then none
    else values.creditCardId
  { t with
    description := values.description
    amount := amount
    type := values.type
    category := values.category
    date := values.date
    paymentMethod := match paymentMethod with
      | some p => some p
      | none => t.paymentMethod
    creditCardId := match creditCardId with
      | some c => some c
      | none => t.creditCardId
    groupId := match values.groupId with
      | some g => some g
      | none => t.groupId }

/-- A category document (`src/lib/categories.ts` shape). -/
structure Category where
  id : String
  name : String
  icon : String
deriving DecidableEq, Repr

/-- The `defaultCategories` array of `src/lib/categories.ts`. -/
def defaultCategories : List Category :=
  [⟨"moradia", "Moradia", "Home"⟩,
   ⟨"alimentacao", "Alimentação", "UtensilsCrossed"⟩,
   ⟨"transporte", "Transporte", "Car"⟩,
   ⟨"lazer", "Lazer", "Smile"⟩,
   ⟨"saude", "Saúde", "HeartPulse"⟩,
   ⟨"compras", "Compras", "ShoppingBag"⟩,
   ⟨"salario", "Salário", "DollarSign"⟩,
   ⟨"recorrente", "Recorrente", "Repeat"⟩,
   ⟨"outros", "Outros", "Sprout"⟩]

/-- `deleteCategory` of `dashboard-shell.tsx` (lines 1003-1035): look up the
fallback "Outros" default category (aborting if absent), batch-update every
transaction whose `category` equals the deleted id to the fallback id,
batch-delete the category document, and commit the batch atomically.  The
state transition below is that single committed batch. -/
def deleteCategory (id : String) (txs : List Tx) (cats : List Category) :
    List Tx × List Category :=
  match defaultCategories.find? (fun c => c.id == "outros") with
  | none => (txs, cats)
  | some otherCategory =>
      (txs.map fun t =>
         if t.category = id then { t with category := otherCategory.id }
         else t,
       cats.filter fun c => c.id != id)

/-- The `transactionSchema` zod validation of the dashboard form
(`dashboard-shell.tsx`): description nonempty, amount positive,
installments (when given) an integer `≥ 1`, a recurring expense needs an
end date, and a recurring end date must be strictly after the
transaction date. -/
def transactionSchemaAccepts (v : AddValues) : Bool :=
  decide (1 ≤ v.description.length) &&
  decide (0 < v.amount) &&
  (match v.installments with
   | some k => decide (1 ≤ k)
   | none => true) &&
  !(decide (v.type = TxType.expense) && v.isRecurring &&
    decide (v.recurringEndDate = none)) &&
  !(v.isRecurring &&
    (match v.recurringEndDate with
     | some e => dateLe e v.date
     | none => false))

/-- A 3-installment purchase of R$100 starting 2024-01-15 (the worked
scenario of the specification). -/
def exInstallments3 : AddValues :=
  { description := "Compra"
    amount := 100
    type := TxType.expense
    category := "compras"
    date := ⟨2024, 1, 15⟩
    paymentMethod := some PaymentMethod.creditCard
    creditCardId := some "card1"
    installments := some 3 }

/-- An expense submitted with `installments = 1`. -/
def exInstallments1 : AddValues :=
  { description := "Conta"
    amount := 30
    type := TxType.expense
    category := "compras"
    date := ⟨2024, 5, 2⟩
    installments := some 1 }

/-- A recurring expense R$50 monthly from 2024-01-10 to 2024-04-10 (the
worked scenario of the specification). -/
def exRecurring : AddValues :=
  { description := "Aluguel"
    amount := 50
    type := TxType.expense
    category := "moradia"
    date := ⟨2024, 1, 10⟩
    isRecurring := true
    recurringEndDate := some ⟨2024, 4, 10⟩ }

/-- A recurring expense starting on a month-end day (2024-01-31), whose
iterated monthly dates get clamped by February. -/
def exRecurringClamp : AddValues :=
  { description := "Assinatura"
    amount := 50
    type := TxType.expense
    category := "lazer"
    date := ⟨2024, 1, 31⟩
    isRecurring := true
    recurringEndDate := some ⟨2024, 3, 31⟩ }

/-- A recurring expense spanning 612 months (2000-01-01 to 2051-01-01),
far beyond any sane horizon. -/
def exRecurring612 : AddValues :=
  { description := "Plano"
    amount := 50
    type := TxType.expense
    category := "moradia"
    date := ⟨2000, 1, 1⟩
    isRecurring := true
    recurringEndDate := some ⟨2051, 1, 1⟩ }

/-- An income submitted together with an installment count. -/
def exIncomeInstallments : AddValues :=
  { description := "Salario"
    amount := 20
    type := TxType.income
    category := "salario"
    date := ⟨2024, 2, 1⟩
    installments := some 3 }

/-- A stored transaction that belongs to no group. -/
def exSoloTx : Tx :=
  { id := "t9"
    description := "Avulsa"
    amount := -5
    type := TxType.expense
    category := "lazer"
    date := ⟨2024, 3, 3⟩
    paymentMethod := some PaymentMethod.cash }

/-- An edit-form payload turning a record into a cash expense. -/
def exUpdateValues : UpdateValues :=
  { description := "Conta editada"
    amount := 25
    type := TxType.expense
    category := "moradia"
    date := ⟨2024, 1, 6⟩
    paymentMethod := some PaymentMethod.cash }

/-- A stored transaction list referencing the custom category "cat9". -/
def exTxs : List Tx :=
  [{ id := "t1", description := "A", amount := -3,
     type := TxType.expense, category := "cat9", date := ⟨2024, 1, 1⟩ },
   { id := "t2", description := "B", amount := -4,
     type := TxType.expense, category := "moradia", date := ⟨2024, 1, 2⟩ }]

/-- A stored custom-category list holding "cat9". -/
def exCats : List Category := [⟨"cat9", "Minha", "Star"⟩]

/-- A stored group member paid by credit card. -/
def exGroupMember : Tx :=
  { id := "t1"
    description := "Conta (1/2)"
    amount := -10
    type := TxType.expense
    category := "compras"
    date := ⟨2024, 1, 5⟩
    paymentMethod := some PaymentMethod.creditCard
    creditCardId := some "card1"
    groupId := some "g1"
    isOriginal := some true }

end AppGestao
namespace AppGestao

lemma monthIndex_addMonths (d : Date) (n : Nat) :
    monthIndex (addMonths d n) = monthIndex d + n := by
  simp only [monthIndex, addMonths]
  omega

lemma day_addMonths_le (d : Date) (n : Nat) : (addMonths d n).day ≤ d.day := by
  simp [addMonths]

lemma dateLe_iff (a b : Date) :
    dateLe a b = true ↔
      monthIndex a < monthIndex b ∨
        (monthIndex a = monthIndex b ∧ a.day ≤ b.day) := by
  simp [dateLe]

lemma iterAddMonths_succ (k : Nat) (d : Date) :
    iterAddMonths (k + 1) d = addMonths (iterAddMonths k d) 1 := by
  induction k generalizing d with
  | zero => rfl
  | succ k ih => rw [iterAddMonths, ih, iterAddMonths]

lemma monthIndex_iterAddMonths (k : Nat) (d : Date) :
    monthIndex (iterAddMonths k d) = monthIndex d + k := by
  induction k generalizing d with
  | zero => rfl
  | succ k ih => rw [iterAddMonths, ih, monthIndex_addMonths]; omega

lemma day_iterAddMonths_le (k : Nat) (d : Date) :
    (iterAddMonths k d).day ≤ d.day := by
  induction k generalizing d with
  | zero => simp [iterAddMonths]
  | succ k ih =>
      rw [iterAddMonths]
      exact le_trans (ih _) (day_addMonths_le d 1)

lemma dateLe_iterAddMonths (k : Nat) (d : Date) :
    dateLe d (iterAddMonths k d) = true := by
  rcases k with _ | k
  · rw [dateLe_iff]; right; exact ⟨rfl, le_refl _⟩
  · rw [dateLe_iff]; left
    rw [monthIndex_iterAddMonths]; omega

lemma recurringGo_cons (gid : String) (v : AddValues) (endDate : Date)
    (fuel : Nat) (cur : Date) (i : Nat) (h : dateLe cur endDate = true) :
    recurringGo gid v endDate (fuel + 1) cur i =
      recurringDraft gid v cur i ::
        recurringGo gid v endDate fuel (addMonths cur 1) (i + 1) := by
  rw [recurringGo, h]
  simp

lemma recurringGo_empty (gid : String) (v : AddValues) (endDate : Date)
    (fuel : Nat) (cur : Date) (i : Nat) (h : dateLe cur endDate = false) :
    recurringGo gid v endDate (fuel + 1) cur i = [] := by
  rw [recurringGo, h]
  simp

lemma recurringGo_nil (gid : String) (v : AddValues) (endDate : Date)
    (fuel : Nat) (cur : Date) (i : Nat)
    (h : monthIndex endDate < monthIndex cur) :
    recurringGo gid v endDate fuel cur i = [] := by
  cases fuel with
  | zero => rfl
  | succ fuel =>
      apply recurringGo_empty
      rw [Bool.eq_false_iff]
      intro hc
      rw [dateLe_iff] at hc
      omega

lemma recurringGo_length (gid : String) (v : AddValues) (endDate : Date) :
    ∀ (fuel : Nat) (cur : Date) (i : Nat),
      monthIndex endDate + 1 - monthIndex cur ≤ fuel →
      dateLe cur endDate = true → cur.day ≤ endDate.day →
      (recurringGo gid v endDate fuel cur i).length =
        monthIndex endDate - monthIndex cur + 1 := by
  intro fuel
  induction fuel with
  | zero =>
      intro cur i hfuel hle _
      rw [dateLe_iff] at hle
      omega
  | succ fuel ih =>
      intro cur i hfuel hle hday
      rw [recurringGo_cons gid v endDate fuel cur i hle, List.length_cons]
      have hmi : monthIndex cur ≤ monthIndex endDate := by
        rw [dateLe_iff] at hle; omega
      rcases Nat.lt_or_ge (monthIndex cur) (monthIndex endDate) with hlt | hge
      · have hrec := ih (addMonths cur 1) (i + 1)
          (by rw [monthIndex_addMonths]; omega)
          (by
            rw [dateLe_iff, monthIndex_addMonths]
            rcases Nat.lt_or_ge (monthIndex cur + 1) (monthIndex endDate)
              with h1 | h1
            · left; exact h1
            · right
              refine ⟨by omega, ?_⟩
              exact le_trans (day_addMonths_le cur 1) hday)
          (le_trans (day_addMonths_le cur 1) hday)
        rw [hrec, monthIndex_addMonths]
        omega
      · rw [recurringGo_nil gid v endDate fuel (addMonths cur 1) (i + 1)
          (by rw [monthIndex_addMonths]; omega)]
        simp
        omega

lemma recurringGo_getElem? (gid : String) (v : AddValues) (endDate : Date) :
    ∀ (fuel : Nat) (cur : Date) (i k : Nat),
      k < (recurringGo gid v endDate fuel cur i).length →
      monthIndex endDate + 1 - monthIndex cur ≤ fuel →
      (recurringGo gid v endDate fuel cur i)[k]? =
          some (recurringDraft gid v (iterAddMonths k cur) (i + k)) ∧
        dateLe (iterAddMonths k cur) endDate = true := by
  intro fuel
  induction fuel with
  | zero => intro cur i k hk _; simp [recurringGo] at hk
  | succ fuel ih =>
      intro cur i k hk hfuel
      rcases hc : dateLe cur endDate with _ | _
      · rw [recurringGo_empty gid v endDate fuel cur i hc] at hk
        simp at hk
      · rw [recurringGo_cons gid v endDate fuel cur i hc] at hk ⊢
        rcases k with _ | k
        · exact ⟨by simp [iterAddMonths], by rw [iterAddMonths]; exact hc⟩
        · simp only [List.length_cons, Nat.add_lt_add_iff_right] at hk
          simp only [List.getElem?_cons_succ]
          have hmi : monthIndex cur ≤ monthIndex endDate := by
            rw [dateLe_iff] at hc; omega
          have := ih (addMonths cur 1) (i + 1) k hk
            (by rw [monthIndex_addMonths]; omega)
          rw [iterAddMonths]
          refine ⟨?_, this.2⟩
          rw [this.1]
          have harg : i + 1 + k = i + (k + 1) := by omega
          rw [harg]

lemma recurringGo_stop (gid : String) (v : AddValues) (endDate : Date) :
    ∀ (fuel : Nat) (cur : Date) (i : Nat),
      monthIndex endDate + 1 - monthIndex cur ≤ fuel →
      dateLe
        (iterAddMonths (recurringGo gid v endDate fuel cur i).length cur)
        endDate = false := by
  intro fuel
  induction fuel with
  | zero =>
      intro cur i hfuel
      simp only [recurringGo, List.length_nil, iterAddMonths]
      rw [Bool.eq_false_iff]
      intro hc
      rw [dateLe_iff] at hc
      omega
  | succ fuel ih =>
      intro cur i hfuel
      rcases hc : dateLe cur endDate with _ | _
      · rw [recurringGo_empty gid v endDate fuel cur i hc]
        simpa [iterAddMonths] using hc
      · rw [recurringGo_cons gid v endDate fuel cur i hc, List.length_cons]
        have hmi : monthIndex cur ≤ monthIndex endDate := by
          rw [dateLe_iff] at hc; omega
        rw [iterAddMonths]
        exact ih (addMonths cur 1) (i + 1)
          (by rw [monthIndex_addMonths]; omega)

end AppGestao
namespace AppGestao

lemma installmentGo_eq (gid : String) (v : AddValues) (n : Nat)
    (total base : ℚ) :
    ∀ (fuel : Nat) (acc : ℚ) (i : Nat), i + fuel = n → 0 < fuel →
      installmentGo gid v n total base fuel acc i =
        (List.range' i (fuel - 1)).map
            (fun k => installmentDraft gid v n k base) ++
          [installmentDraft gid v n (n - 1)
            (total - (acc + base * ((fuel - 1 : Nat) : ℚ)))] := by
  intro fuel
  induction fuel with
  | zero => intro acc i h h0; omega
  | succ fuel ih =>
      intro acc i h h0
      cases fuel with
      | zero =>
          have hi : i = n - 1 := by omega
          rw [installmentGo, if_pos hi, hi]
          simp [installmentGo]
      | succ fuel =>
          have hne : ¬ i = n - 1 := by omega
          rw [installmentGo, if_neg hne]
          rw [ih (acc + base) (i + 1) (by omega) (by omega)]
          have h1 : fuel + 1 + 1 - 1 = fuel + 1 := by omega
          have h2 : fuel + 1 - 1 = fuel := by omega
          rw [h1, h2, List.range'_succ, List.map_cons, List.cons_append]
          have hamt : total - (acc + base + base * ((fuel : Nat) : ℚ)) =
              total - (acc + base * (((fuel + 1 : Nat)) : ℚ)) := by
            push_cast
            ring
          rw [hamt]

lemma installmentDrafts_eq (gid : String) (v : AddValues) (n : Nat)
    (hn : 0 < n) :
    installmentDrafts gid v n =
      (List.range' 0 (n - 1)).map
          (fun k => installmentDraft gid v n k (installmentAmount v.amount n))
        ++ [installmentDraft gid v n (n - 1)
            (v.amount - installmentAmount v.amount n * ((n - 1 : Nat) : ℚ))] := by
  rw [installmentDrafts, installmentGo_eq gid v n v.amount
    (installmentAmount v.amount n) n 0 0 (by omega) hn]
  norm_num

end AppGestao

namespace AppGestao

lemma installmentAmount_nonneg (total : ℚ) (n : Nat) (h : 0 ≤ total) :
    0 ≤ installmentAmount total n := by
  unfold installmentAmount
  have hfl : (0 : ℤ) ≤ ⌊total / (n : ℚ) * 100⌋ := by
    rw [Int.floor_nonneg]
    positivity
  positivity

lemma installmentAmount_mul_le (total : ℚ) (n : Nat) (hn : 0 < n) :
    installmentAmount total n * (n : ℚ) ≤ total := by
  unfold installmentAmount
  have hn' : (0 : ℚ) < (n : ℚ) := by exact_mod_cast hn
  have hfl := Int.floor_le (total / (n : ℚ) * 100)
  rw [div_mul_eq_mul_div, div_le_iff₀ (by norm_num : (0:ℚ) < 100)]
  calc (⌊total / (n : ℚ) * 100⌋ : ℚ) * (n : ℚ)
      ≤ total / (n : ℚ) * 100 * (n : ℚ) :=
        mul_le_mul_of_nonneg_right hfl (le_of_lt hn')
    _ = total * 100 := by field_simp

lemma lt_installmentAmount_mul (total : ℚ) (n : Nat) (hn : 0 < n) :
    total < installmentAmount total n * (n : ℚ) + (n : ℚ) / 100 := by
  unfold installmentAmount
  have hn' : (0 : ℚ) < (n : ℚ) := by exact_mod_cast hn
  have hfl := Int.lt_floor_add_one (total / (n : ℚ) * 100)
  have h2 : total / (n : ℚ) * 100 * (n : ℚ) <
      ((⌊total / (n : ℚ) * 100⌋ : ℚ) + 1) * (n : ℚ) :=
    mul_lt_mul_of_pos_right hfl hn'
  have h3 : total / (n : ℚ) * 100 * (n : ℚ) = total * 100 := by
    field_simp
  rw [h3] at h2
  rw [div_mul_eq_mul_div, div_add_div_same, lt_div_iff₀ (by norm_num : (0:ℚ) < 100)]
  linarith

end AppGestao

namespace AppGestao

lemma addTransactionDrafts_installments (gid : String) (v : AddValues)
    (n : Nat) (hty : v.type = TxType.expense) (hrec : v.isRecurring = false)
    (hins : v.installments = some (n : Int)) (hn : 2 ≤ n) :
    addTransactionDrafts gid v = installmentDrafts gid v n := by
  have hcond : ¬(v.type = TxType.expense ∧ v.isRecurring = true ∧
      v.recurringEndDate ≠ none) := by simp [hrec]
  have hcond2 : v.type = TxType.expense ∧ 1 < v.installments.getD 0 := by
    refine ⟨hty, ?_⟩
    rw [hins, Option.getD_some]
    exact_mod_cast hn
  rw [addTransactionDrafts, if_neg hcond, if_pos hcond2]
  congr 1
  rw [hins, Option.getD_some, Int.toNat_natCast]

lemma getElem_concat_self {α : Type} (A : List α) (x : α) (k : Nat)
    (hk : k = A.length) (h : k < (A ++ [x]).length) : (A ++ [x])[k] = x := by
  subst hk
  rw [List.getElem_append_right (le_refl _)]
  simp

lemma abs_amount_installmentDraft (gid : String) (v : AddValues)
    (n i : Nat) (amt : ℚ) :
    |(installmentDraft gid v n i amt).amount| = |amt| := by
  simp [installmentDraft, abs_neg, abs_abs]

/-- C1: in an installment expansion with `count ≥ 2` and positive total,
every draft before the last has absolute amount
`floor(totalAmount/count*100)/100`, the last absorbs the remainder
`totalAmount - base*(count-1)`, the remainder `totalAmount - base*count`
is nonnegative and below `count` cents, and the absolute amounts sum
exactly to the total. -/
theorem claim_C1 (gid : String) (v : AddValues) (n : Nat)
    (hty : v.type = TxType.expense) (hrec : v.isRecurring = false)
    (hins : v.installments = some (n : Int)) (hn : 2 ≤ n)
    (hpos : 0 < v.amount) :
    (addTransactionDrafts gid v).length = n ∧
    (∀ k, (hk : k < (addTransactionDrafts gid v).length) → k + 1 < n →
      |(addTransactionDrafts gid v)[k].amount| =
        installmentAmount v.amount n) ∧
    (∀ k, (hk : k < (addTransactionDrafts gid v).length) → k + 1 = n →
      |(addTransactionDrafts gid v)[k].amount| =
        v.amount - installmentAmount v.amount n * ((n - 1 : Nat) : ℚ)) ∧
    0 ≤ v.amount - installmentAmount v.amount n * (n : ℚ) ∧
    v.amount - installmentAmount v.amount n * (n : ℚ) < (n : ℚ) / 100 ∧
    ((addTransactionDrafts gid v).map (fun d => |d.amount|)).sum =
      v.amount := by
  have hn0 : 0 < n := by omega
  have hb := addTransactionDrafts_installments gid v n hty hrec hins hn
  have heq := installmentDrafts_eq gid v n hn0
  rw [hb, heq]
  have hbnn : 0 ≤ installmentAmount v.amount n :=
    installmentAmount_nonneg v.amount n (le_of_lt hpos)
  have hble := installmentAmount_mul_le v.amount n hn0
  have hlt := lt_installmentAmount_mul v.amount n hn0
  have hcast : ((n - 1 : Nat) : ℚ) = (n : ℚ) - 1 := by
    push_cast [Nat.cast_sub (by omega : 1 ≤ n)]
    ring
  have hlast_nn : 0 ≤ v.amount - installmentAmount v.amount n *
      ((n - 1 : Nat) : ℚ) := by
    rw [hcast]
    nlinarith
  have hlen : ((List.range' 0 (n - 1)).map
      (fun k => installmentDraft gid v n k
        (installmentAmount v.amount n))).length = n - 1 := by
    simp
  refine ⟨by simp; omega, ?_, ?_, by linarith, by linarith, ?_⟩
  · intro k hk hklt
    rw [List.getElem_append_left (by rw [hlen]; omega)]
    rw [List.getElem_map, List.getElem_range'_1]
    simp only [Nat.zero_add]
    rw [abs_amount_installmentDraft]
    exact abs_of_nonneg hbnn
  · intro k hk hkeq
    have hk' : k = n - 1 := by omega
    subst hk'
    rw [getElem_concat_self _ _ _ (by rw [hlen])]
    rw [abs_amount_installmentDraft]
    exact abs_of_nonneg hlast_nn
  · rw [List.map_append, List.sum_append, List.map_map]
    have hcomp : ((fun d => |d.amount|) ∘
        (fun k => installmentDraft gid v n k
          (installmentAmount v.amount n))) =
        fun _ => installmentAmount v.amount n := by
      funext k
      simp only [Function.comp]
      rw [abs_amount_installmentDraft]
      exact abs_of_nonneg hbnn
    rw [hcomp, List.map_const', List.length_range', List.sum_replicate]
    rw [List.map_singleton, List.sum_singleton]
    rw [abs_amount_installmentDraft, abs_of_nonneg hlast_nn]
    rw [nsmul_eq_mul, hcast]
    ring

end AppGestao
namespace AppGestao

lemma getElem_of_getElem? {α : Type} (l : List α) (k : Nat)
    (h : k < l.length) (x : α) (hx : l[k]? = some x) : l[k] = x := by
  rw [List.getElem?_eq_getElem h] at hx
  exact Option.some.inj hx

lemma addTransactionDrafts_recurring (gid : String) (v : AddValues)
    (e : Date) (hty : v.type = TxType.expense) (hrec : v.isRecurring = true)
    (hend : v.recurringEndDate = some e) :
    addTransactionDrafts gid v = recurringDrafts gid v e := by
  rw [addTransactionDrafts, if_pos ⟨hty, hrec, by rw [hend]; simp⟩, hend]
  rfl

lemma recurringGo_eq_nil_of_not_le (gid : String) (v : AddValues)
    (endDate : Date) (fuel : Nat) (cur : Date) (i : Nat)
    (h : dateLe cur endDate = false) :
    recurringGo gid v endDate fuel cur i = [] := by
  cases fuel with
  | zero => rfl
  | succ fuel => exact recurringGo_empty gid v endDate fuel cur i h

lemma recurringDrafts_length_pos (gid : String) (v : AddValues) (e : Date)
    (hle : dateLe v.date e = true) :
    0 < (recurringDrafts gid v e).length := by
  rw [recurringDrafts]
  have hmi : monthIndex v.date ≤ monthIndex e := by
    rw [dateLe_iff] at hle; omega
  have hspan : monthIndex e + 1 - monthIndex v.date =
      (monthIndex e - monthIndex v.date) + 1 := by omega
  rw [hspan, recurringGo_cons gid v e _ v.date 0 hle]
  simp

lemma recurringDrafts_getElem (gid : String) (v : AddValues) (e : Date)
    (k : Nat) (hk : k < (recurringDrafts gid v e).length) :
    (recurringDrafts gid v e)[k] =
        recurringDraft gid v (iterAddMonths k v.date) k ∧
      dateLe (iterAddMonths k v.date) e = true := by
  have h := recurringGo_getElem? gid v e
    (monthIndex e + 1 - monthIndex v.date) v.date 0 k hk (le_refl _)
  refine ⟨getElem_of_getElem? _ _ hk _ ?_, h.2⟩
  rw [recurringDrafts, h.1]
  simp

lemma recurringDrafts_stop (gid : String) (v : AddValues) (e : Date) :
    dateLe (iterAddMonths (recurringDrafts gid v e).length v.date) e =
      false := by
  rw [recurringDrafts]
  exact recurringGo_stop gid v e _ v.date 0 (le_refl _)

end AppGestao
namespace AppGestao

/-- C2 (amended): for a recurring expansion with `startDate ≤ endDate`, the
k-th draft is dated at the k-th iterate of `addMonths · 1` (day-of-month
clamped to each target month's length, which can differ from
`startDate + k months` computed in one step), every date lies between
`startDate` and `endDate`, consecutive dates are one `addMonths` step
apart, generation stops at the first iterate past `endDate`, every amount
is `-totalAmount`, descriptions are suffixed `" (Recorrente)"`, and
`isOriginal` holds exactly for the first draft. -/
theorem claim_C2_amended (gid : String) (v : AddValues) (e : Date)
    (hty : v.type = TxType.expense) (hrec : v.isRecurring = true)
    (hend : v.recurringEndDate = some e) (hle : dateLe v.date e = true)
    (hpos : 0 < v.amount) :
    1 ≤ (addTransactionDrafts gid v).length ∧
    (∀ k, (hk : k < (addTransactionDrafts gid v).length) →
      (addTransactionDrafts gid v)[k].date = iterAddMonths k v.date ∧
      dateLe v.date (addTransactionDrafts gid v)[k].date = true ∧
      dateLe (addTransactionDrafts gid v)[k].date e = true ∧
      (addTransactionDrafts gid v)[k].amount = -v.amount ∧
      (addTransactionDrafts gid v)[k].description =
        v.description ++ " (Recorrente)" ∧
      (addTransactionDrafts gid v)[k].groupId = some gid ∧
      (addTransactionDrafts gid v)[k].isOriginal = some (decide (k = 0))) ∧
    (∀ k, (hk : k + 1 < (addTransactionDrafts gid v).length) →
      (addTransactionDrafts gid v)[k + 1].date =
        addMonths ((addTransactionDrafts gid v)[k]).date 1) ∧
    dateLe (iterAddMonths (addTransactionDrafts gid v).length v.date) e =
      false := by
  have hb := addTransactionDrafts_recurring gid v e hty hrec hend
  rw [hb]
  refine ⟨recurringDrafts_length_pos gid v e hle, ?_, ?_,
    recurringDrafts_stop gid v e⟩
  · intro k hk
    obtain ⟨h1, h2⟩ := recurringDrafts_getElem gid v e k hk
    rw [h1]
    refine ⟨rfl, ?_, h2, ?_, rfl, rfl, rfl⟩
    · exact dateLe_iterAddMonths k v.date
    · simp [recurringDraft, abs_of_pos hpos]
  · intro k hk
    have hk' : k < (recurringDrafts gid v e).length := by omega
    obtain ⟨h1, _⟩ := recurringDrafts_getElem gid v e k hk'
    obtain ⟨h2, _⟩ := recurringDrafts_getElem gid v e (k + 1) hk
    rw [h1, h2]
    exact iterAddMonths_succ k v.date

/-- C2 (counterexample): starting 2024-01-31 with end date 2024-03-31, the
generated dates are clamped to [01-31, 02-29, 03-29], while
`startDate + 2 months` computed in one step is 2024-03-31 (which is within
the end date), so the drafts are not those dated `startDate + k months`. -/
theorem claim_C2_counterexample :
    (addTransactionDrafts "g1" exRecurringClamp).map (fun d => d.date) =
      [⟨2024, 1, 31⟩, ⟨2024, 2, 29⟩, ⟨2024, 3, 29⟩] ∧
    addMonths ⟨2024, 1, 31⟩ 2 = ⟨2024, 3, 31⟩ ∧
    dateLe (addMonths ⟨2024, 1, 31⟩ 2) ⟨2024, 3, 31⟩ = true ∧
    (⟨2024, 3, 29⟩ : Date) ≠ ⟨2024, 3, 31⟩ := by decide

/-- C6 (amended): the recurring branch applies no horizon bound: when the
day of month carries over, a request spanning more than 600 months
generates one record per month of the whole range (the loop terminates for
every input, as the embedding is total by construction). -/
theorem claim_C6_amended (gid : String) (v : AddValues) (e : Date)
    (hty : v.type = TxType.expense) (hrec : v.isRecurring = true)
    (hend : v.recurringEndDate = some e) (hle : dateLe v.date e = true)
    (hday : v.date.day ≤ e.day)
    (hspan : 600 < monthIndex e - monthIndex v.date) :
    (addTransactionDrafts gid v).length =
      monthIndex e - monthIndex v.date + 1 ∧
    600 < (addTransactionDrafts gid v).length := by
  have hb := addTransactionDrafts_recurring gid v e hty hrec hend
  rw [hb, recurringDrafts]
  have h := recurringGo_length gid v e
    (monthIndex e + 1 - monthIndex v.date) v.date 0 (le_refl _) hle hday
  rw [h]
  omega

/-- C6 (counterexample): a recurring request spanning 612 months
(2000-01-01 to 2051-01-01) generates 613 records instead of failing with
`InvalidRange`. -/
theorem claim_C6_counterexample :
    (addTransactionDrafts "g1" exRecurring612).length = 613 := by
  rw [addTransactionDrafts_recurring "g1" exRecurring612 ⟨2051, 1, 1⟩
    rfl rfl rfl, recurringDrafts]
  rw [recurringGo_length "g1" exRecurring612 ⟨2051, 1, 1⟩ _ _ 0 (le_refl _)
    (by decide) (by decide)]
  decide

end AppGestao
namespace AppGestao

/-- C7 (amended): for an installment expansion with `count ≥ 2`, all drafts
share the supplied group id, draft `k` is described with suffix
`"(k+1/count)"`, and `isOriginal` holds exactly for `k = 0`; a submission
with `count = 1` instead takes the single-transaction branch (no group id,
no suffix, no `isOriginal` flag). -/
theorem claim_C7_amended (gid : String) (v : AddValues) (n : Nat)
    (hty : v.type = TxType.expense) (hrec : v.isRecurring = false)
    (hins : v.installments = some (n : Int)) (hn : 2 ≤ n) :
    (addTransactionDrafts gid v).length = n ∧
    (∀ k, (hk : k < (addTransactionDrafts gid v).length) →
      (addTransactionDrafts gid v)[k].groupId = some gid ∧
      (addTransactionDrafts gid v)[k].description =
        v.description ++ " (" ++ toString (k + 1) ++ "/" ++ toString n ++
          ")" ∧
      (addTransactionDrafts gid v)[k].isOriginal =
        some (decide (k = 0))) := by
  have hn0 : 0 < n := by omega
  have hb := addTransactionDrafts_installments gid v n hty hrec hins hn
  have heq := installmentDrafts_eq gid v n hn0
  rw [hb, heq]
  have hlen : ((List.range' 0 (n - 1)).map
      (fun k => installmentDraft gid v n k
        (installmentAmount v.amount n))).length = n - 1 := by
    simp
  refine ⟨by simp; omega, ?_⟩
  intro k hk
  have hktot : k < n := by
    simp only [List.length_append, List.length_map, List.length_range',
      List.length_singleton] at hk
    omega
  rcases Nat.lt_or_ge k (n - 1) with hklt | hkge
  · rw [List.getElem_append_left (by rw [hlen]; omega)]
    rw [List.getElem_map, List.getElem_range'_1]
    simp only [Nat.zero_add]
    exact ⟨rfl, rfl, rfl⟩
  · have hk' : k = n - 1 := by omega
    subst hk'
    rw [getElem_concat_self _ _ _ (by rw [hlen])]
    exact ⟨rfl, rfl, rfl⟩

/-- C7 (counterexample): a submission with `installments = 1` produces the
single draft: no group id, an unsuffixed description, and no `isOriginal`
flag, so the claim fails at `count = 1`. -/
theorem claim_C7_counterexample :
    addTransactionDrafts "g1" exInstallments1 =
      [{ description := "Conta", amount := -30, type := TxType.expense,
         category := "compras", date := ⟨2024, 5, 2⟩ }] := by decide

end AppGestao
namespace AppGestao

/-- C10: recurring drafts force `paymentMethod = cash` and carry no
`creditCardId`, while installment and single drafts keep the requested
payment method and credit card id. -/
theorem claim_C10 :
    (∀ (gid : String) (v : AddValues) (e : Date),
      v.type = TxType.expense → v.isRecurring = true →
      v.recurringEndDate = some e →
      ∀ k, (hk : k < (addTransactionDrafts gid v).length) →
        (addTransactionDrafts gid v)[k].paymentMethod =
          some PaymentMethod.cash ∧
        (addTransactionDrafts gid v)[k].creditCardId = none) ∧
    (∀ (gid : String) (v : AddValues) (n : Nat),
      v.type = TxType.expense → v.isRecurring = false →
      v.installments = some (n : Int) → 2 ≤ n →
      ∀ k, (hk : k < (addTransactionDrafts gid v).length) →
        (addTransactionDrafts gid v)[k].paymentMethod = v.paymentMethod ∧
        (addTransactionDrafts gid v)[k].creditCardId = v.creditCardId) ∧
    (∀ v : AddValues, (singleDraft v).paymentMethod = v.paymentMethod ∧
      (singleDraft v).creditCardId = v.creditCardId) := by
  refine ⟨?_, ?_, fun v => ⟨rfl, rfl⟩⟩
  · intro gid v e hty hrec hend
    rw [addTransactionDrafts_recurring gid v e hty hrec hend]
    intro k hk
    obtain ⟨h1, _⟩ := recurringDrafts_getElem gid v e k hk
    rw [h1]
    exact ⟨rfl, rfl⟩
  · intro gid v n hty hrec hins hn
    have hn0 : 0 < n := by omega
    rw [addTransactionDrafts_installments gid v n hty hrec hins hn,
      installmentDrafts_eq gid v n hn0]
    have hlen : ((List.range' 0 (n - 1)).map
        (fun k => installmentDraft gid v n k
          (installmentAmount v.amount n))).length = n - 1 := by
      simp
    intro k hk
    have hktot : k < n := by
      simp only [List.length_append, List.length_map, List.length_range',
        List.length_singleton] at hk
      omega
    rcases Nat.lt_or_ge k (n - 1) with hklt | hkge
    · rw [List.getElem_append_left (by rw [hlen]; omega)]
      rw [List.getElem_map, List.getElem_range'_1]
      exact ⟨rfl, rfl⟩
    · have hk' : k = n - 1 := by omega
      subst hk'
      rw [getElem_concat_self _ _ _ (by rw [hlen])]
      exact ⟨rfl, rfl⟩

/-- C5 (amended): `addTransaction` itself performs no parameter
validation and never fails: an income submission (even with installment
or recurring flags) and a non-recurring expense with installment count
`≤ 1` both fall through to the single-draft branch and write one record,
while a recurring expense whose end date is before its start date
silently generates zero drafts.  The only validation lives in the form's
zod schema, which does reject a non-positive installment count and a
recurring end date not after the start date, but accepts income combined
with installments. -/
theorem claim_C5_amended :
    (∀ (gid : String) (v : AddValues), v.type = TxType.income →
      addTransactionDrafts gid v = [singleDraft v]) ∧
    (∀ (gid : String) (v : AddValues), v.type = TxType.expense →
      v.isRecurring = false → v.installments.getD 0 ≤ 1 →
      addTransactionDrafts gid v = [singleDraft v]) ∧
    (∀ (gid : String) (v : AddValues) (e : Date),
      v.type = TxType.expense → v.isRecurring = true →
      v.recurringEndDate = some e → dateLe v.date e = false →
      addTransactionDrafts gid v = []) ∧
    (∀ (v : AddValues) (k : Int), v.installments = some k → k ≤ 0 →
      transactionSchemaAccepts v = false) ∧
    (∀ (v : AddValues) (e : Date), v.isRecurring = true →
      v.recurringEndDate = some e → dateLe e v.date = true →
      transactionSchemaAccepts v = false) := by
  refine ⟨?_, ?_, ?_, ?_, ?_⟩
  · intro gid v h
    rw [addTransactionDrafts, if_neg, if_neg]
    · rintro ⟨h1, _⟩
      rw [h] at h1
      exact absurd h1 (by decide)
    · rintro ⟨h1, _, _⟩
      rw [h] at h1
      exact absurd h1 (by decide)
  · intro gid v hty hrec hinst
    rw [addTransactionDrafts, if_neg, if_neg]
    · rintro ⟨_, h2⟩
      omega
    · rintro ⟨_, h1, _⟩
      rw [hrec] at h1
      exact absurd h1 (by decide)
  · intro gid v e hty hrec hend hlt
    rw [addTransactionDrafts_recurring gid v e hty hrec hend,
      recurringDrafts]
    exact recurringGo_eq_nil_of_not_le gid v e _ v.date 0 hlt
  · intro v k hins hk
    rw [transactionSchemaAccepts, hins]
    have hd : decide (1 ≤ k) = false := by simp; omega
    simp [hd]
  · intro v e hrec hend hdl
    rw [transactionSchemaAccepts, hrec, hend]
    simp [hdl]

/-- C5 (counterexample): an income submitted with `installments = 3` passes
the form's zod validation and produces one written record, instead of
failing with a `ValidationError` before any draft is generated. -/
theorem claim_C5_counterexample :
    transactionSchemaAccepts exIncomeInstallments = true ∧
    addTransactionDrafts "g1" exIncomeInstallments =
      [{ description := "Salario", amount := 20, type := TxType.income,
         category := "salario", date := ⟨2024, 2, 1⟩ }] := by decide

/-- C3 (code bug): a group edit that sets the payment method to cash does
not clear `creditCardId` on the stored member: the code assigns
`undefined` and then strips `undefined` keys before the batch update, so
the stored field survives unchanged. -/
theorem claim_C3_code_bug :
    updateTransactionGroup "g1"
        { paymentMethod := some PaymentMethod.cash } [exGroupMember] =
      [{ exGroupMember with paymentMethod := some PaymentMethod.cash }] ∧
    ({ exGroupMember with
        paymentMethod := some PaymentMethod.cash } : Tx).creditCardId =
      some "card1" := by decide

end AppGestao
namespace AppGestao

/-- C4: a group edit rewrites exactly the members of the group (other
records are untouched), never changes `id`, `description`, `amount`,
`type` or `date` on any record, and is a zero-effect success when no
record carries the group id. -/
theorem claim_C4 (gid : String) (values : GroupValues) (txs : List Tx) :
    (updateTransactionGroup gid values txs).length = txs.length ∧
    (∀ k, (hk : k < txs.length) →
      (hk2 : k < (updateTransactionGroup gid values txs).length) →
      (txs[k].groupId = some gid →
        (updateTransactionGroup gid values txs)[k] =
          updateGroupFields values txs[k]) ∧
      (txs[k].groupId ≠ some gid →
        (updateTransactionGroup gid values txs)[k] = txs[k]) ∧
      (updateTransactionGroup gid values txs)[k].id = txs[k].id ∧
      (updateTransactionGroup gid values txs)[k].description =
        txs[k].description ∧
      (updateTransactionGroup gid values txs)[k].amount = txs[k].amount ∧
      (updateTransactionGroup gid values txs)[k].type = txs[k].type ∧
      (updateTransactionGroup gid values txs)[k].date = txs[k].date) ∧
    ((∀ t ∈ txs, t.groupId ≠ some gid) →
      updateTransactionGroup gid values txs = txs) := by
  refine ⟨by simp [updateTransactionGroup], ?_, ?_⟩
  · intro k hk hk2
    have hmap : (updateTransactionGroup gid values txs)[k] =
        (if txs[k].groupId = some gid then updateGroupFields values txs[k]
         else txs[k]) :=
      List.getElem_map _
    by_cases hg : txs[k].groupId = some gid
    · rw [hmap, if_pos hg]
      exact ⟨fun _ => rfl, fun hne => absurd hg hne, rfl, rfl, rfl, rfl,
        rfl⟩
    · rw [hmap, if_neg hg]
      exact ⟨fun h => absurd h hg, fun _ => rfl, rfl, rfl, rfl, rfl, rfl⟩
  · intro hall
    rw [updateTransactionGroup]
    have hcong : txs.map (fun t =>
        if t.groupId = some gid then updateGroupFields values t else t) =
        txs.map id :=
      List.map_congr_left (fun t ht => by rw [if_neg (hall t ht)]; rfl)
    rw [hcong, List.map_id]

lemma mem_recurringGo (gid : String) (v : AddValues) (e : Date) :
    ∀ (fuel : Nat) (cur : Date) (i : Nat) (d : Draft),
      d ∈ recurringGo gid v e fuel cur i →
      d.amount = -|v.amount| ∧ d.type = v.type := by
  intro fuel
  induction fuel with
  | zero => intro cur i d hd; simp [recurringGo] at hd
  | succ fuel ih =>
      intro cur i d hd
      rcases hc : dateLe cur e with _ | _
      · rw [recurringGo_empty gid v e fuel cur i hc] at hd
        simp at hd
      · rw [recurringGo_cons gid v e fuel cur i hc] at hd
        rcases List.mem_cons.mp hd with h | h
        · subst h; exact ⟨rfl, rfl⟩
        · exact ih _ _ _ h

lemma mem_installmentGo (gid : String) (v : AddValues) (n : Nat)
    (total base : ℚ) :
    ∀ (fuel : Nat) (acc : ℚ) (i : Nat) (d : Draft),
      d ∈ installmentGo gid v n total base fuel acc i →
      (∃ amt, d.amount = -|amt|) ∧ d.type = v.type := by
  intro fuel
  induction fuel with
  | zero => intro acc i d hd; simp [installmentGo] at hd
  | succ fuel ih =>
      intro acc i d hd
      rw [installmentGo] at hd
      by_cases hi : i = n - 1
      · rw [if_pos hi] at hd
        rcases List.mem_cons.mp hd with h | h
        · subst h; exact ⟨⟨total - acc, rfl⟩, rfl⟩
        · exact ih _ _ _ h
      · rw [if_neg hi] at hd
        rcases List.mem_cons.mp hd with h | h
        · subst h; exact ⟨⟨base, rfl⟩, rfl⟩
        · exact ih _ _ _ h

/-- C9: every draft written by `addTransaction` and every record rewritten
by `updateTransaction` has its amount sign matching its type
(non-positive for expenses, non-negative for income), and
`updateTransactionGroup` preserves the invariant because it never writes
`amount` or `type`. -/
theorem claim_C9 :
    (∀ (gid : String) (v : AddValues) (d : Draft),
      d ∈ addTransactionDrafts gid v →
      (d.type = TxType.expense → d.amount ≤ 0) ∧
      (d.type = TxType.income → 0 ≤ d.amount)) ∧
    (∀ (values : UpdateValues) (t : Tx),
      ((updateTransaction values t).type = TxType.expense →
        (updateTransaction values t).amount ≤ 0) ∧
      ((updateTransaction values t).type = TxType.income →
        0 ≤ (updateTransaction values t).amount)) ∧
    (∀ (gid : String) (values : GroupValues) (txs : List Tx) (k : Nat),
      (hk : k < txs.length) →
      (hk2 : k < (updateTransactionGroup gid values txs).length) →
      (updateTransactionGroup gid values txs)[k].amount = txs[k].amount ∧
      (updateTransactionGroup gid values txs)[k].type = txs[k].type) := by
  refine ⟨?_, ?_, ?_⟩
  · intro gid v d hd
    rw [addTransactionDrafts] at hd
    split_ifs at hd with h1 h2
    · rw [recurringDrafts] at hd
      obtain ⟨ha, htp⟩ := mem_recurringGo gid v _ _ _ _ _ hd
      constructor
      · intro _
        rw [ha]
        exact neg_nonpos.mpr (abs_nonneg _)
      · intro hin
        rw [htp, h1.1] at hin
        exact absurd hin (by decide)
    · rw [installmentDrafts] at hd
      obtain ⟨⟨amt, ha⟩, htp⟩ := mem_installmentGo gid v _ _ _ _ _ _ _ hd
      constructor
      · intro _
        rw [ha]
        exact neg_nonpos.mpr (abs_nonneg _)
      · intro hin
        rw [htp, h2.1] at hin
        exact absurd hin (by decide)
    · have hds : d = singleDraft v := List.mem_singleton.mp hd
      subst hds
      constructor
      · intro h
        have hv : v.type = TxType.expense := h
        show signedAmount v ≤ 0
        rw [signedAmount, if_pos hv]
        exact neg_nonpos.mpr (abs_nonneg _)
      · intro h
        have hv : v.type = TxType.income := h
        show 0 ≤ signedAmount v
        rw [signedAmount, if_neg (by rw [hv]; decide)]
        exact abs_nonneg _
  · intro values t
    constructor
    · intro h
      have hv : values.type = TxType.expense := h
      show (if values.type = TxType.expense then -|values.amount|
            else |values.amount|) ≤ 0
      rw [if_pos hv]
      exact neg_nonpos.mpr (abs_nonneg _)
    · intro h
      have hv : values.type = TxType.income := h
      show 0 ≤ (if values.type = TxType.expense then -|values.amount|
            else |values.amount|)
      rw [if_neg (by rw [hv]; decide)]
      exact abs_nonneg _
  · intro gid values txs k hk hk2
    have hmap : (updateTransactionGroup gid values txs)[k] =
        (if txs[k].groupId = some gid then updateGroupFields values txs[k]
         else txs[k]) :=
      List.getElem_map _
    by_cases hg : txs[k].groupId = some gid
    · rw [hmap, if_pos hg]
      exact ⟨rfl, rfl⟩
    · rw [hmap, if_neg hg]
      exact ⟨rfl, rfl⟩

/-- C8: deleting a (custom) category reassigns every transaction that
referenced it to the default fallback id `"outros"` — which exists among
the default categories — removes the category document, leaves all other
transactions untouched, and the whole change is the single committed
batch modelled by this one state transition. -/
theorem claim_C8 (id : String) (txs : List Tx) (cats : List Category)
    (hid : id ≠ "outros") :
    (∀ t ∈ (deleteCategory id txs cats).1, t.category ≠ id) ∧
    (∀ k, (hk : k < txs.length) →
      (hk2 : k < (deleteCategory id txs cats).1.length) →
      (txs[k].category = id →
        (deleteCategory id txs cats).1[k] =
          { txs[k] with category := "outros" }) ∧
      (txs[k].category ≠ id →
        (deleteCategory id txs cats).1[k] = txs[k])) ∧
    (∀ c ∈ (deleteCategory id txs cats).2, c.id ≠ id) ∧
    (deleteCategory id txs cats).1.length = txs.length ∧
    "outros" ∈ defaultCategories.map (fun c => c.id) := by
  have hdel : deleteCategory id txs cats =
      (txs.map fun t =>
         if t.category = id then { t with category := "outros" } else t,
       cats.filter fun c => c.id != id) := rfl
  rw [hdel]
  refine ⟨?_, ?_, ?_, by simp, by decide⟩
  · intro t ht
    obtain ⟨t0, _, rfl⟩ := List.mem_map.mp ht
    by_cases h : t0.category = id
    · rw [if_pos h]
      intro he
      exact hid he.symm
    · rw [if_neg h]
      exact h
  · intro k hk hk2
    have hmap : (txs.map fun t =>
        if t.category = id then { t with category := "outros" }
        else t)[k] =
        (if txs[k].category = id then { txs[k] with category := "outros" }
         else txs[k]) :=
      List.getElem_map _
    by_cases h : txs[k].category = id
    · rw [hmap, if_pos h]
      exact ⟨fun _ => rfl, fun hne => absurd h hne⟩
    · rw [hmap, if_neg h]
      exact ⟨fun hcat => absurd hcat h, fun _ => rfl⟩
  · intro c hc
    have := (List.mem_filter.mp hc).2
    simpa using this

end AppGestao
namespace AppGestao

theorem claim_C1_witness :
    (2 ≤ 3 ∧ 0 < exInstallments3.amount) ∧
    (addTransactionDrafts "g1" exInstallments3).length = 3 ∧
    ((addTransactionDrafts "g1" exInstallments3).map
      (fun d => |d.amount|)).sum = exInstallments3.amount :=
  ⟨⟨by norm_num, by decide⟩,
   (claim_C1 "g1" exInstallments3 3 rfl rfl rfl (by norm_num)
     (by decide)).1,
   (claim_C1 "g1" exInstallments3 3 rfl rfl rfl (by norm_num)
     (by decide)).2.2.2.2.2⟩

theorem claim_C2_witness :
    (dateLe exRecurring.date ⟨2024, 4, 10⟩ = true ∧
      0 < exRecurring.amount) ∧
    1 ≤ (addTransactionDrafts "g1" exRecurring).length ∧
    dateLe (iterAddMonths (addTransactionDrafts "g1" exRecurring).length
      exRecurring.date) ⟨2024, 4, 10⟩ = false :=
  ⟨⟨by decide, by decide⟩,
   (claim_C2_amended "g1" exRecurring ⟨2024, 4, 10⟩ rfl rfl rfl (by decide)
     (by decide)).1,
   (claim_C2_amended "g1" exRecurring ⟨2024, 4, 10⟩ rfl rfl rfl (by decide)
     (by decide)).2.2.2⟩

theorem claim_C4_witness :
    updateTransactionGroup "g1"
        { paymentMethod := some PaymentMethod.cash } [exSoloTx] =
      [exSoloTx] ∧
    (updateTransactionGroup "g1"
        { paymentMethod := some PaymentMethod.cash } [exSoloTx]).length =
      [exSoloTx].length :=
  ⟨(claim_C4 "g1" { paymentMethod := some PaymentMethod.cash }
      [exSoloTx]).2.2 (by decide),
   (claim_C4 "g1" { paymentMethod := some PaymentMethod.cash }
      [exSoloTx]).1⟩

theorem claim_C5_witness :
    addTransactionDrafts "g1" exIncomeInstallments =
      [singleDraft exIncomeInstallments] :=
  claim_C5_amended.1 "g1" exIncomeInstallments rfl

theorem claim_C6_witness :
    (addTransactionDrafts "g1" exRecurring612).length =
      monthIndex ⟨2051, 1, 1⟩ - monthIndex ⟨2000, 1, 1⟩ + 1 ∧
    600 < (addTransactionDrafts "g1" exRecurring612).length :=
  ⟨(claim_C6_amended "g1" exRecurring612 ⟨2051, 1, 1⟩ rfl rfl rfl
      (by decide) (by decide) (by decide)).1,
   (claim_C6_amended "g1" exRecurring612 ⟨2051, 1, 1⟩ rfl rfl rfl
      (by decide) (by decide) (by decide)).2⟩

theorem claim_C7_witness :
    (addTransactionDrafts "g1" exInstallments3).length = 3 ∧
    ((addTransactionDrafts "g1" exInstallments3).get
      ⟨0, by decide⟩).description = "Compra (1/3)" ∧
    ((addTransactionDrafts "g1" exInstallments3).get
      ⟨0, by decide⟩).isOriginal = some true := by
  have h := claim_C7_amended "g1" exInstallments3 3 rfl rfl rfl
    (by norm_num)
  refine ⟨h.1, ?_, ?_⟩
  · rw [List.get_eq_getElem, (h.2 0 (by decide)).2.1]
    decide
  · rw [List.get_eq_getElem, (h.2 0 (by decide)).2.2]
    decide

theorem claim_C8_witness :
    (∀ t ∈ (deleteCategory "cat9" exTxs exCats).1, t.category ≠ "cat9") ∧
    (deleteCategory "cat9" exTxs exCats).1.length = exTxs.length :=
  ⟨(claim_C8 "cat9" exTxs exCats (by decide)).1,
   (claim_C8 "cat9" exTxs exCats (by decide)).2.2.2.1⟩

theorem claim_C9_witness :
    0 ≤ (singleDraft exIncomeInstallments).amount ∧
    (updateTransaction exUpdateValues exGroupMember).amount ≤ 0 :=
  ⟨(claim_C9.1 "g1" exIncomeInstallments (singleDraft exIncomeInstallments)
      (by decide)).2 rfl,
   (claim_C9.2.1 exUpdateValues exGroupMember).1 rfl⟩

theorem claim_C10_witness :
    ((addTransactionDrafts "g1" exRecurring).get
      ⟨0, by decide⟩).paymentMethod = some PaymentMethod.cash ∧
    ((addTransactionDrafts "g1" exRecurring).get
      ⟨0, by decide⟩).creditCardId = none := by
  have h := claim_C10.1 "g1" exRecurring ⟨2024, 4, 10⟩ rfl rfl rfl 0
    (by decide)
  rw [List.get_eq_getElem]
  exact h

end AppGestao

namespace AppGestao

/-- Worked scenario of the specification: splitting R$100 in 3 gives a
base installment of 33.33 and a last installment of 33.34. -/
theorem spec_scenario_installments :
    installmentAmount 100 3 = 3333 / 100 ∧
    100 - installmentAmount 100 3 * ((2 : Nat) : ℚ) = 3334 / 100 := by
  have h : installmentAmount 100 3 = 3333 / 100 := by
    rw [installmentAmount]
    norm_num [Int.floor_eq_iff]
  refine ⟨h, by rw [h]; norm_num⟩

/-- Worked scenario of the specification: R$50 recurring from 2024-01-10
to 2024-04-10 gives four drafts of -50 dated on the 10th. -/
theorem spec_scenario_recurring :
    (addTransactionDrafts "g1" exRecurring).map
      (fun d => (d.date, d.amount, d.isOriginal)) =
      [(⟨2024, 1, 10⟩, -50, some true), (⟨2024, 2, 10⟩, -50, some false),
       (⟨2024, 3, 10⟩, -50, some false),
       (⟨2024, 4, 10⟩, -50, some false)] := by decide

end AppGestao
